import Mathlib

/-!
Verification of the runpod-cli-dashboard repository.

This file embeds the core logic of the repository as executable Lean
definitions and proves properties of them:

* the data model of pods (`Pod`, `PodRuntime`, `PodPort`);
* the readiness poll loop `wait_for_pod_ready` (src/utils/api.py);
* GPU-type normalization and fuzzy suggestions `normalize_for_match`,
  `suggest_gpu_types` (src/utils/api.py);
* the environment merge `merge_env_kv_list` (src/utils/api.py);
* the creation-time GPU validation of `create_pod` (src/utils/api.py);
* the tmux-session idempotency logic and `check_http_server_running`
  (src/runpod_cli.py);
* the persisted-latest-pod reader `get_latest_pod_id` (src/utils/config.py);
* the pod-acquisition decision procedure of `main` (src/runpod_cli.py),
  modelled as a pure function from a configuration and an API oracle to
  the list of API actions issued and the final outcome.

Python strings are modelled as Lean `String` with ASCII semantics
(`str.casefold` is modelled as per-character `Char.toLower`, which agrees
with Python on ASCII input).  Python dicts are modelled as association
lists in insertion order.  Network calls are modelled by oracles supplied
as explicit inputs, and the side effects of the CLI are recorded as
explicit action traces.
-/

/-- One exposed network port of a pod, as returned by the GraphQL queries. -/
structure PodPort where
  ip : String
  publicPort : Nat
  privatePort : Nat
  protoType : String
  isIpPublic : Bool
deriving DecidableEq

/-- The runtime descriptor of a pod; present only when the pod is running. -/
structure PodRuntime where
  ports : List PodPort
  uptimeInSeconds : Nat
deriving DecidableEq

/-- A pod record as the tool sees it: id, name, desired status, the GPU type
of the machine it is scheduled on, and an optional runtime descriptor. -/
structure Pod where
  id : String
  name : String
  desiredStatus : String
  gpuTypeId : String
  runtime : Option PodRuntime
deriving DecidableEq

/-- Readiness test applied by `wait_for_pod_ready` to one `get_pod` response:
the Python code checks `pod and pod.get("runtime") and pod["runtime"].get("ports")`,
i.e. the pod exists, its runtime descriptor is present and its ports list is
non-empty. -/
def is_ready_response (p : Option Pod) : Bool :=
  match p with
  | some pod =>
    match pod.runtime with
    | some rt => !rt.ports.isEmpty
    | none => false
  | none => false

/-- Loop body of `wait_for_pod_ready`, indexed by the number of remaining
loop entries.  The Python loop polls at times 0, 10, 20, ... seconds (one
`get_pod` call, then `time.sleep(10)`) while the elapsed time is strictly
below the timeout, so with a timeout of `timeout` seconds the body is
entered exactly `(timeout + 9) / 10` times unless a poll succeeds first.
Returns the result flag together with the number of `get_pod` calls
performed. -/
def wait_iter (responses : Nat → Option Pod) : Nat → Nat → Bool × Nat
  | 0, n => (false, n)
  | steps + 1, n =>
    if is_ready_response (responses n) then (true, n + 1)
    else wait_iter responses steps (n + 1)

/-- Model of `RunPodClient.wait_for_pod_ready` (src/utils/api.py).  The
sequence of `get_pod` responses is an explicit input; the result is the
returned flag together with the number of `get_pod` calls performed. -/
def wait_for_pod_ready (responses : Nat → Option Pod) (timeout : Nat) : Bool × Nat :=
  wait_iter responses ((timeout + 9) / 10) 0

/-- Characters kept by the normalization regex: after case folding the
Python code replaces every run matching `[^a-z0-9]+` by a single space. -/
def is_alnum_lower (c : Char) : Bool :=
  ('a' ≤ c && c ≤ 'z') || ('0' ≤ c && c ≤ '9')

/-- Splits a character list into the maximal runs of kept characters,
dropping everything else; this realizes the composition of
`re.sub(r"[^a-z0-9]+", " ", s)` with `" ".join(s.split())`. -/
def tokenize_aux : List Char → List Char → List String
  | [], acc => if acc.isEmpty then [] else [String.mk acc.reverse]
  | c :: cs, acc =>
    if is_alnum_lower c then tokenize_aux cs (c :: acc)
    else if acc.isEmpty then tokenize_aux cs []
    else String.mk acc.reverse :: tokenize_aux cs []

/-- Model of `_normalize_for_match` (src/utils/api.py): case fold, replace
every run of non-alphanumeric characters by one space, and strip the
result.  Equivalently: lowercase, then join the maximal alphanumeric runs
with single spaces. -/
def normalize_for_match (s : String) : String :=
  String.intercalate " " (tokenize_aux (s.data.map Char.toLower) [])

example : normalize_for_match "NVIDIA--A100 (80GB)" = "nvidia a100 80gb" := by decide
example : wait_for_pod_ready (fun _ => none) 25 = (false, 3) := by decide

/-- Lexicographic comparison of character lists by code point, matching how
Python compares the strings inside the `(ratio, candidate)` tuples that
`heapq.nlargest` orders. -/
def char_list_le : List Char → List Char → Bool
  | [], _ => true
  | _ :: _, [] => false
  | a :: as, b :: bs => if a = b then char_list_le as bs else decide (a < b)

/-- String comparison by code-point lexicographic order (Python `<=`). -/
def str_le (a b : String) : Bool :=
  char_list_le a.data b.data

/-- Ranking relation used to model `heapq.nlargest` inside
`difflib.get_close_matches`: candidate `a` ranks no lower than `b` when the
pair of its similarity score and the candidate string itself is
lexicographically at least that of `b` (nlargest sorts the
`(score, candidate)` tuples descending). -/
def rank_rel (sim : String → Nat) (a b : String) : Prop :=
  sim b < sim a ∨ (sim b = sim a ∧ str_le b a = true)

instance (sim : String → Nat) : DecidableRel (rank_rel sim) := fun _ _ =>
  inferInstanceAs (Decidable (_ ∨ _))

theorem char_list_le_total : ∀ as bs, char_list_le as bs = true ∨ char_list_le bs as = true := by
  intro as
  induction as with
  | nil => intro bs; left; rfl
  | cons a as ih =>
    intro bs
    cases bs with
    | nil => right; rfl
    | cons b bs =>
      by_cases hab : a = b
      · subst hab
        simpa [char_list_le] using ih bs
      · rcases lt_trichotomy a b with h | h | h
        · left; simp [char_list_le, hab, h]
        · exact absurd h hab
        · right; simp [char_list_le, Ne.symm hab, h]

theorem char_list_le_trans :
    ∀ as bs cs, char_list_le as bs = true → char_list_le bs cs = true →
      char_list_le as cs = true := by
  intro as
  induction as with
  | nil => intro bs cs _ _; rfl
  | cons a as ih =>
    intro bs cs h1 h2
    cases bs with
    | nil => simp [char_list_le] at h1
    | cons b bs =>
      cases cs with
      | nil => simp [char_list_le] at h2
      | cons c cs =>
        by_cases hab : a = b
        · subst hab
          by_cases hbc : a = c
          · subst hbc
            simp only [char_list_le, if_pos rfl] at h1 h2 ⊢
            exact ih bs cs h1 h2
          · simpa [char_list_le, hbc] using by
              simpa [char_list_le, hbc] using h2
        · by_cases hbc : b = c
          · subst hbc
            simpa [char_list_le, hab] using by
              simpa [char_list_le, hab] using h1
          · simp only [char_list_le, if_neg hab] at h1
            simp only [char_list_le, if_neg hbc] at h2
            have hac : a < c := lt_trans (of_decide_eq_true h1) (of_decide_eq_true h2)
            simp [char_list_le, ne_of_lt hac, hac]

theorem rank_rel_total (sim : String → Nat) :
    ∀ a b, rank_rel sim a b ∨ rank_rel sim b a := by
  intro a b
  rcases lt_trichotomy (sim a) (sim b) with h | h | h
  · right; exact Or.inl h
  · rcases char_list_le_total b.data a.data with hle | hle
    · left; exact Or.inr ⟨h.symm, hle⟩
    · right; exact Or.inr ⟨h, hle⟩
  · left; exact Or.inl h

theorem rank_rel_trans (sim : String → Nat) :
    ∀ a b c, rank_rel sim a b → rank_rel sim b c → rank_rel sim a c := by
  intro a b c hab hbc
  rcases hab with h1 | ⟨h1, h1'⟩
  · rcases hbc with h2 | ⟨h2, h2'⟩
    · exact Or.inl (lt_trans h2 h1)
    · exact Or.inl (h2 ▸ h1)
  · rcases hbc with h2 | ⟨h2, h2'⟩
    · exact Or.inl (lt_of_lt_of_eq h2 h1)
    · exact Or.inr ⟨h2.trans h1, char_list_le_trans _ _ _ h2' h1'⟩

instance (sim : String → Nat) : IsTotal String (rank_rel sim) :=
  ⟨rank_rel_total sim⟩

instance (sim : String → Nat) : IsTrans String (rank_rel sim) :=
  ⟨rank_rel_trans sim⟩

/-- Python dict insertion on an association list: replace the value in place
when the key is already bound (keeping its position), otherwise append the
new binding at the end.  This is exactly the behaviour of
`valid_norm[_normalize_for_match(x)] = x` inside a dict comprehension. -/
def dict_insert (m : List (String × String)) (k v : String) : List (String × String) :=
  if m.any (fun kv => kv.1 == k) then
    m.map (fun kv => if kv.1 == k then (k, v) else kv)
  else m ++ [(k, v)]

/-- The dict comprehension of `_suggest_gpu_types`:
normalized id mapping to the original id, later entries overwriting the
value but keeping the key position. -/
def build_norm_map (validIds : List String) : List (String × String) :=
  validIds.foldl (fun m x => dict_insert m (normalize_for_match x) x) []

/-- Model of `difflib.get_close_matches(given, candidates, n=k, cutoff=0.0)`
with an abstract similarity score.  With cutoff 0.0 no candidate is
filtered out, so the call is `heapq.nlargest(k, [(score, cand), ...])`
followed by dropping the scores: the candidates sorted descending by
score, ties broken by descending string order, truncated to `k`. -/
def close_matches (sim : String → Nat) (cands : List String) (k : Nat) : List String :=
  (List.insertionSort (rank_rel sim) cands).take k

/-- Model of `_suggest_gpu_types` (src/utils/api.py) with the
`SequenceMatcher.ratio` similarity abstracted as `sim` (the spec calls it
a generic string-similarity score; the floating point score is out of
scope of this embedding).  `sim gN c` scores candidate `c` against the
normalized given string `gN`. -/
def suggest_gpu_types (sim : String → String → Nat) (given : String)
    (validIds : List String) (k : Nat) : List String :=
  let givenN := normalize_for_match given
  let validNorm := build_norm_map validIds
  match List.lookup givenN validNorm with
  | some orig => [orig]
  | none =>
    let candidates := validNorm.map Prod.fst
    ((close_matches (sim givenN) candidates k).take k).filterMap
      (fun c => List.lookup c validNorm)

example :
    suggest_gpu_types (fun _ _ => 0) "nvidia-a100" ["x", "NVIDIA A100"] 5
      = ["NVIDIA A100"] := by decide

example :
    suggest_gpu_types (fun _ _ => 0) "zzzz" ["A-1", "a_1", "B-2", "b_2", "C-3", "c_3"] 5
      = ["c_3", "b_2", "a_1"] := by decide

theorem dict_insert_keys (m : List (String × String)) (k v : String) :
    (dict_insert m k v).map Prod.fst
      = if m.any (fun kv => kv.1 == k) then m.map Prod.fst
        else m.map Prod.fst ++ [k] := by
  unfold dict_insert
  split
  · next h =>
    simp only [h, if_true, List.map_map]
    apply List.map_congr_left
    intro kv _
    by_cases hk : kv.1 = k
    · simp only [Function.comp_apply, hk, beq_self_eq_true, if_true]
    · have hk' : (kv.1 == k) = false := beq_eq_false_iff_ne.mpr hk
      simp [Function.comp_apply, hk', hk]
  · next h =>
    simp [h]

theorem dict_insert_keys_nodup (m : List (String × String)) (k v : String)
    (h : (m.map Prod.fst).Nodup) : ((dict_insert m k v).map Prod.fst).Nodup := by
  rw [dict_insert_keys]
  split
  · exact h
  · next hany =>
    have hk : k ∉ m.map Prod.fst := by
      intro hmem
      rcases List.mem_map.mp hmem with ⟨kv, hkv, hfst⟩
      exact hany (List.any_eq_true.mpr ⟨kv, hkv, by simp [hfst]⟩)
    refine h.append (List.nodup_singleton k) ?_
    intro x hx hx'
    rcases List.mem_singleton.mp hx' with rfl
    exact hk hx

theorem dict_insert_entries (P : String → String → Prop)
    (m : List (String × String)) (k v : String)
    (hm : ∀ kv ∈ m, P kv.1 kv.2) (hkv : P k v) :
    ∀ kv ∈ dict_insert m k v, P kv.1 kv.2 := by
  intro kv hmem
  unfold dict_insert at hmem
  split at hmem
  · rcases List.mem_map.mp hmem with ⟨kv', hkv', heq⟩
    by_cases hk : kv'.1 == k
    · simp only [hk, if_true] at heq
      exact heq ▸ hkv
    · simp only [hk, if_neg, Bool.false_eq_true, not_false_iff, ite_false] at heq
      exact heq ▸ hm kv' hkv'
  · rcases List.mem_append.mp hmem with h | h
    · exact hm kv h
    · rcases List.mem_singleton.mp h with rfl
      exact hkv

theorem dict_insert_mem_keys (m : List (String × String)) (k v k' : String)
    (h : k' ∈ m.map Prod.fst) : k' ∈ (dict_insert m k v).map Prod.fst := by
  rw [dict_insert_keys]
  split
  · exact h
  · exact List.mem_append.mpr (Or.inl h)

theorem dict_insert_new_key_mem (m : List (String × String)) (k v : String) :
    k ∈ (dict_insert m k v).map Prod.fst := by
  rw [dict_insert_keys]
  split
  · next h =>
    rcases List.any_eq_true.mp h with ⟨kv, hkv, hk⟩
    exact List.mem_map.mpr ⟨kv, hkv, eq_of_beq hk⟩
  · exact List.mem_append.mpr (Or.inr (List.mem_singleton.mpr rfl))

theorem foldl_dict_invariant (P : String × String → Prop) :
    ∀ (l : List String) (acc : List (String × String)),
      (∀ kv ∈ acc, P kv) → (∀ x ∈ l, P (normalize_for_match x, x)) →
      ∀ kv ∈ l.foldl (fun m x => dict_insert m (normalize_for_match x) x) acc, P kv := by
  intro l
  induction l with
  | nil => intro acc hacc _ kv hkv; exact hacc kv hkv
  | cons x xs ih =>
    intro acc hacc hl kv hkv
    refine ih (dict_insert acc (normalize_for_match x) x) ?_ ?_ kv hkv
    · exact dict_insert_entries (fun a b => P (a, b)) acc _ _ hacc
        (hl x (List.mem_cons_self x xs))
    · intro y hy; exact hl y (List.mem_cons_of_mem x hy)

theorem build_norm_map_entries (validIds : List String) :
    ∀ kv ∈ build_norm_map validIds,
      kv.2 ∈ validIds ∧ normalize_for_match kv.2 = kv.1 := by
  refine foldl_dict_invariant _ validIds [] (by simp) ?_
  intro x hx
  exact ⟨hx, rfl⟩

theorem foldl_dict_keys_nodup :
    ∀ (l : List String) (acc : List (String × String)),
      (acc.map Prod.fst).Nodup →
      ((l.foldl (fun m x => dict_insert m (normalize_for_match x) x) acc).map Prod.fst).Nodup := by
  intro l
  induction l with
  | nil => intro acc h; exact h
  | cons x xs ih =>
    intro acc h
    exact ih _ (dict_insert_keys_nodup acc _ _ h)

theorem build_norm_map_keys_nodup (validIds : List String) :
    ((build_norm_map validIds).map Prod.fst).Nodup :=
  foldl_dict_keys_nodup validIds [] (by simp)

theorem foldl_dict_keys_mono :
    ∀ (l : List String) (acc : List (String × String)) (k : String),
      k ∈ acc.map Prod.fst →
      k ∈ (l.foldl (fun m x => dict_insert m (normalize_for_match x) x) acc).map Prod.fst := by
  intro l
  induction l with
  | nil => intro acc k h; exact h
  | cons x xs ih =>
    intro acc k h
    exact ih _ k (dict_insert_mem_keys acc _ _ k h)

theorem mem_keys_build_norm_map (validIds : List String) (k : String) :
    k ∈ (build_norm_map validIds).map Prod.fst
      ↔ ∃ x ∈ validIds, normalize_for_match x = k := by
  constructor
  · intro h
    rcases List.mem_map.mp h with ⟨kv, hkv, hfst⟩
    rcases build_norm_map_entries validIds kv hkv with ⟨hmem, hnorm⟩
    exact ⟨kv.2, hmem, by rw [hnorm, hfst]⟩
  · rintro ⟨x, hx, rfl⟩
    suffices h : ∀ (l : List String) (acc : List (String × String)), x ∈ l →
        normalize_for_match x ∈
          (l.foldl (fun m y => dict_insert m (normalize_for_match y) y) acc).map Prod.fst by
      exact h validIds [] hx
    intro l
    induction l with
    | nil => intro acc h; exact absurd h (List.not_mem_nil x)
    | cons y ys ih =>
      intro acc h
      rcases List.mem_cons.mp h with rfl | h
      · exact foldl_dict_keys_mono ys _ _ (dict_insert_new_key_mem acc _ _)
      · exact ih _ h

theorem lookup_some_mem {k v : String} :
    ∀ {m : List (String × String)}, List.lookup k m = some v → (k, v) ∈ m := by
  intro m
  induction m with
  | nil => intro h; simp [List.lookup] at h
  | cons kv m ih =>
    obtain ⟨k1, v1⟩ := kv
    intro h
    by_cases hk : k == k1
    · simp only [List.lookup, hk, Option.some.injEq] at h
      have hkk : k = k1 := eq_of_beq hk
      subst hkk
      rcases h with rfl
      exact List.mem_cons_self _ _
    · rw [Bool.not_eq_true] at hk
      simp only [List.lookup, hk] at h
      exact List.mem_cons_of_mem _ (ih h)

theorem lookup_isSome_of_mem_keys {k : String} :
    ∀ {m : List (String × String)}, k ∈ m.map Prod.fst →
      (List.lookup k m).isSome := by
  intro m
  induction m with
  | nil => intro h; simp at h
  | cons kv m ih =>
    obtain ⟨k1, v1⟩ := kv
    intro h
    by_cases hk : k == k1
    · simp [List.lookup, hk]
    · rw [Bool.not_eq_true] at hk
      simp only [List.lookup, hk]
      refine ih ?_
      rcases List.mem_map.mp h with ⟨kv', hkv', hfst⟩
      rcases List.mem_cons.mp hkv' with rfl | hkv'
      · exact absurd (beq_iff_eq.mpr hfst.symm) (by simp [hk])
      · exact List.mem_map.mpr ⟨kv', hkv', hfst⟩

theorem filterMap_lookup_map_norm (m : List (String × String))
    (hm : ∀ c v, List.lookup c m = some v → normalize_for_match v = c) :
    ∀ cs : List String,
      (cs.filterMap (fun c => List.lookup c m)).map normalize_for_match
        = cs.filter (fun c => (List.lookup c m).isSome) := by
  intro cs
  induction cs with
  | nil => rfl
  | cons c cs ih =>
    cases hc : List.lookup c m with
    | none => simp [List.filterMap_cons, hc, List.filter_cons, ih]
    | some v =>
      simp [List.filterMap_cons, hc, List.filter_cons, ih, hm c v hc]

theorem suggest_else_eq (sim : String → String → Nat) (given : String)
    (validIds : List String)
    (h : List.lookup (normalize_for_match given) (build_norm_map validIds) = none) :
    suggest_gpu_types sim given validIds 5
      = (close_matches (sim (normalize_for_match given))
            ((build_norm_map validIds).map Prod.fst) 5).filterMap
          (fun c => List.lookup c (build_norm_map validIds)) := by
  simp only [suggest_gpu_types, h]
  simp only [close_matches, List.take_take, Nat.min_self]

theorem close_matches_subset (sim : String → Nat) (cands : List String) (k : Nat) :
    ∀ x ∈ close_matches sim cands k, x ∈ cands := by
  intro x hx
  exact (List.perm_insertionSort (rank_rel sim) cands).subset
    (List.take_subset _ _ hx)

theorem close_matches_nodup (sim : String → Nat) (cands : List String) (k : Nat)
    (h : cands.Nodup) : (close_matches sim cands k).Nodup :=
  ((List.perm_insertionSort (rank_rel sim) cands).nodup_iff.mpr h).sublist
    (List.take_sublist _ _)

theorem close_matches_sorted (sim : String → Nat) (cands : List String) (k : Nat) :
    (close_matches sim cands k).Pairwise (rank_rel sim) :=
  (List.sorted_insertionSort (rank_rel sim) cands).sublist (List.take_sublist _ _)

theorem close_matches_length (sim : String → Nat) (cands : List String) (k : Nat) :
    (close_matches sim cands k).length = min k cands.length := by
  unfold close_matches
  rw [List.length_take, (List.perm_insertionSort (rank_rel sim) cands).length_eq]

theorem close_matches_top (sim : String → Nat) (cands : List String) (k : Nat)
    (c : String) (hc : c ∈ cands) (hnot : c ∉ close_matches sim cands k) :
    ∀ b ∈ close_matches sim cands k, rank_rel sim b c := by
  intro b hb
  have hsrt : c ∈ List.insertionSort (rank_rel sim) cands :=
    (List.perm_insertionSort (rank_rel sim) cands).mem_iff.mpr hc
  have hsplit := List.take_append_drop k (List.insertionSort (rank_rel sim) cands)
  have hp : ((List.insertionSort (rank_rel sim) cands).take k
      ++ (List.insertionSort (rank_rel sim) cands).drop k).Pairwise (rank_rel sim) := by
    rw [hsplit]
    exact List.sorted_insertionSort (rank_rel sim) cands
  have hdrop : c ∈ (List.insertionSort (rank_rel sim) cands).drop k := by
    rw [← hsplit] at hsrt
    rcases List.mem_append.mp hsrt with h | h
    · exact absurd h hnot
    · exact h
  exact (List.pairwise_append.mp hp).2.2 b hb c hdrop

theorem lookup_norm_none (given : String) (validIds : List String)
    (h : ¬ ∃ c ∈ validIds, normalize_for_match c = normalize_for_match given) :
    List.lookup (normalize_for_match given) (build_norm_map validIds) = none := by
  cases hl : List.lookup (normalize_for_match given) (build_norm_map validIds) with
  | none => rfl
  | some v =>
    exfalso
    have hmem := lookup_some_mem hl
    have hkey : normalize_for_match given ∈ (build_norm_map validIds).map Prod.fst :=
      List.mem_map.mpr ⟨_, hmem, rfl⟩
    exact h ((mem_keys_build_norm_map validIds _).mp hkey)

theorem suggest_exact_case (sim : String → String → Nat) (given : String)
    (validIds : List String) (k : Nat)
    (h : ∃ c ∈ validIds, normalize_for_match c = normalize_for_match given) :
    ∃ c, suggest_gpu_types sim given validIds k = [c] ∧ c ∈ validIds ∧
      normalize_for_match c = normalize_for_match given := by
  have hkey : normalize_for_match given ∈ (build_norm_map validIds).map Prod.fst :=
    (mem_keys_build_norm_map validIds _).mpr h
  rcases Option.isSome_iff_exists.mp (lookup_isSome_of_mem_keys hkey) with ⟨v, hv⟩
  refine ⟨v, ?_, ?_, ?_⟩
  · simp [suggest_gpu_types, hv]
  · exact (build_norm_map_entries validIds _ (lookup_some_mem hv)).1
  · exact (build_norm_map_entries validIds _ (lookup_some_mem hv)).2

theorem suggest_mem (sim : String → String → Nat) (given : String)
    (validIds : List String) (k : Nat) :
    ∀ x ∈ suggest_gpu_types sim given validIds k, x ∈ validIds := by
  intro x hx
  cases hl : List.lookup (normalize_for_match given) (build_norm_map validIds) with
  | some v =>
    simp only [suggest_gpu_types, hl] at hx
    rcases List.mem_singleton.mp hx with rfl
    exact (build_norm_map_entries validIds _ (lookup_some_mem hl)).1
  | none =>
    simp only [suggest_gpu_types, hl] at hx
    rcases List.mem_filterMap.mp hx with ⟨c, _, hc⟩
    exact (build_norm_map_entries validIds _ (lookup_some_mem hc)).1

theorem suggest_length_le (sim : String → String → Nat) (given : String)
    (validIds : List String) :
    (suggest_gpu_types sim given validIds 5).length ≤ 5 := by
  cases hl : List.lookup (normalize_for_match given) (build_norm_map validIds) with
  | some v => simp [suggest_gpu_types, hl]
  | none =>
    rw [suggest_else_eq sim given validIds hl]
    calc ((close_matches (sim (normalize_for_match given))
              ((build_norm_map validIds).map Prod.fst) 5).filterMap
            (fun c => List.lookup c (build_norm_map validIds))).length
        ≤ (close_matches (sim (normalize_for_match given))
              ((build_norm_map validIds).map Prod.fst) 5).length :=
          List.length_filterMap_le _ _
      _ = min 5 ((build_norm_map validIds).map Prod.fst).length :=
          close_matches_length _ _ 5
      _ ≤ 5 := min_le_left _ _

theorem suggest_map_norm (sim : String → String → Nat) (given : String)
    (validIds : List String)
    (hl : List.lookup (normalize_for_match given) (build_norm_map validIds) = none) :
    (suggest_gpu_types sim given validIds 5).map normalize_for_match
      = close_matches (sim (normalize_for_match given))
          ((build_norm_map validIds).map Prod.fst) 5 := by
  rw [suggest_else_eq sim given validIds hl]
  rw [filterMap_lookup_map_norm (build_norm_map validIds)
    (fun c v hv => (build_norm_map_entries validIds _ (lookup_some_mem hv)).2)]
  apply List.filter_eq_self.mpr
  intro c hc
  exact lookup_isSome_of_mem_keys
    (close_matches_subset (sim (normalize_for_match given)) _ 5 c hc)

/-- C4: if the normalized input equals the normalization of some catalog id,
`suggest_gpu_types` returns exactly one id, a catalog member with that
normalized form; otherwise every suggestion is a catalog id, the result is
the top 5 of the distinct normalized forms ranked by the similarity score
(ties resolved the way `heapq.nlargest` resolves them), mapped back to the
original catalog identifiers; normalization folds case and collapses runs
of non-alphanumeric characters to single spaces (concrete instance in the
first conjunct). -/
theorem c4_suggestions_exact_and_ranked (sim : String → String → Nat)
    (given : String) (validIds : List String) :
    (normalize_for_match "NVIDIA--A100 (80GB)" = "nvidia a100 80gb")
    ∧ ((∃ c ∈ validIds, normalize_for_match c = normalize_for_match given) →
        ∃ c, suggest_gpu_types sim given validIds 5 = [c] ∧ c ∈ validIds ∧
          normalize_for_match c = normalize_for_match given)
    ∧ ((¬ ∃ c ∈ validIds, normalize_for_match c = normalize_for_match given) →
        (∀ x ∈ suggest_gpu_types sim given validIds 5, x ∈ validIds)
        ∧ (suggest_gpu_types sim given validIds 5).length
            = min 5 (build_norm_map validIds).length
        ∧ ((suggest_gpu_types sim given validIds 5).map normalize_for_match).Pairwise
            (rank_rel (sim (normalize_for_match given)))
        ∧ ∀ c, (∃ x ∈ validIds, normalize_for_match x = c) →
            c ∉ (suggest_gpu_types sim given validIds 5).map normalize_for_match →
            ∀ b ∈ (suggest_gpu_types sim given validIds 5).map normalize_for_match,
              rank_rel (sim (normalize_for_match given)) b c) := by
  refine ⟨by decide, fun h => suggest_exact_case sim given validIds 5 h, fun h => ?_⟩
  have hl := lookup_norm_none given validIds h
  have hmap := suggest_map_norm sim given validIds hl
  refine ⟨suggest_mem sim given validIds 5, ?_, ?_, ?_⟩
  · have hlen := congrArg List.length hmap
    rw [List.length_map] at hlen
    rw [hlen, close_matches_length, List.length_map]
  · rw [hmap]
    exact close_matches_sorted _ _ 5
  · intro c hc hnot b hb
    rw [hmap] at hnot hb
    exact close_matches_top _ _ 5 c
      ((mem_keys_build_norm_map validIds c).mpr hc) hnot b hb

/-- Witness for C4 at a concrete input: the catalog holds the single id
NVIDIA A100 and the query nvidia-a100 normalizes to the same string, so the
suggestion list is exactly that id. -/
theorem c4_suggestions_witness :
    ∃ c, suggest_gpu_types (fun _ _ => 0) "nvidia-a100" ["NVIDIA A100"] 5 = [c]
      ∧ c ∈ ["NVIDIA A100"]
      ∧ normalize_for_match c = normalize_for_match "nvidia-a100" :=
  (c4_suggestions_exact_and_ranked (fun _ _ => 0) "nvidia-a100" ["NVIDIA A100"]).2.1
    ⟨"NVIDIA A100", by decide, by decide⟩

/-- C8: every suggestion returned by `suggest_gpu_types` belongs to the
given catalog, at most 5 suggestions are returned, distinct catalog ids
sharing a normalized form can contribute at most one suggestion (the
normalized forms of the output are pairwise distinct), and so fewer than 5
can be returned even for a catalog of 5 or more ids (concrete instance:
a 6-id catalog with 3 distinct normalized forms yields 3 suggestions). -/
theorem c8_suggestions_membership (sim : String → String → Nat) (given : String)
    (validIds : List String) :
    (∀ x ∈ suggest_gpu_types sim given validIds 5, x ∈ validIds)
    ∧ (suggest_gpu_types sim given validIds 5).length ≤ 5
    ∧ ((suggest_gpu_types sim given validIds 5).map normalize_for_match).Nodup
    ∧ (suggest_gpu_types (fun _ _ => 0) "zzzz"
        ["A-1", "a_1", "B-2", "b_2", "C-3", "c_3"] 5).length = 3 := by
  refine ⟨suggest_mem sim given validIds 5, suggest_length_le sim given validIds,
    ?_, by decide⟩
  cases hl : List.lookup (normalize_for_match given) (build_norm_map validIds) with
  | some v =>
    simp [suggest_gpu_types, hl]
  | none =>
    rw [suggest_map_norm sim given validIds hl]
    exact close_matches_nodup _ _ 5 (build_norm_map_keys_nodup validIds)

/-- Witness for C8 at a concrete input. -/
theorem c8_suggestions_witness :
    (suggest_gpu_types (fun _ _ => 0) "nvidia-a100" ["NVIDIA A100"] 5).length ≤ 5
      ∧ "NVIDIA A100" ∈ ["NVIDIA A100"] :=
  ⟨(c8_suggestions_membership (fun _ _ => 0) "nvidia-a100" ["NVIDIA A100"]).2.1,
   (c8_suggestions_membership (fun _ _ => 0) "nvidia-a100" ["NVIDIA A100"]).1
     "NVIDIA A100" (by decide)⟩

/-- Model of `_merge_env_kv_list` (src/utils/api.py).  The template
environment is the ordered key/value list returned for the template; the
overrides dict is an association list in its iteration order.  The source
walks the template once, replacing the value when the key is present in the
overrides, then appends every override binding whose key was not seen among
the template keys. -/
def merge_env_kv_list (templateEnv overrides : List (String × String)) :
    List (String × String) :=
  let replaced := templateEnv.map (fun item =>
    match List.lookup item.1 overrides with
    | some v => (item.1, v)
    | none => item)
  let seen := templateEnv.map Prod.fst
  let appended := overrides.filter (fun kv => !seen.contains kv.1)
  replaced ++ appended

example :
    merge_env_kv_list [("A", "1"), ("B", "2")] [("B", "9"), ("C", "3")]
      = [("A", "1"), ("B", "9"), ("C", "3")] := by decide

theorem merge_env_keys (T O : List (String × String)) :
    (merge_env_kv_list T O).map Prod.fst
      = T.map Prod.fst
        ++ (O.filter (fun kv => !((T.map Prod.fst).contains kv.1))).map Prod.fst := by
  simp only [merge_env_kv_list, List.map_append]
  congr 1
  rw [List.map_map]
  apply List.map_congr_left
  intro item _
  cases h : List.lookup item.1 O with
  | none => simp [h]
  | some v => simp [h]

/-- C5: the merge preserves the template key order and replaces the values
of overridden keys in place (the first block of the result is exactly the
template with values replaced), appends override keys absent from the
template afterwards in override iteration order, and merging with an empty
override map returns the template unchanged. -/
theorem c5_merge_env_order_and_values (T O : List (String × String)) :
    merge_env_kv_list T [] = T
    ∧ (merge_env_kv_list T O).take T.length
        = T.map (fun item => (item.1, (List.lookup item.1 O).getD item.2))
    ∧ (merge_env_kv_list T O).drop T.length
        = O.filter (fun kv => !((T.map Prod.fst).contains kv.1)) := by
  refine ⟨?_, ?_, ?_⟩
  · simp [merge_env_kv_list]
  · show (List.map _ T ++ _).take T.length = _
    rw [List.take_left' (by rw [List.length_map])]
    apply List.map_congr_left
    intro item _
    cases h : List.lookup item.1 O with
    | none => simp [h]
    | some v => simp [h]
  · show (List.map _ T ++ _).drop T.length = _
    rw [List.drop_left' (by rw [List.length_map])]

/-- C9: the key set of the merged environment is the union of the template
keys and the override keys; a key occurring several times in the template
keeps every occurrence, and an override key absent from the template is
appended exactly once. -/
theorem c9_merge_env_key_counts (T O : List (String × String))
    (hO : (O.map Prod.fst).Nodup) :
    (∀ k, k ∈ (merge_env_kv_list T O).map Prod.fst
        ↔ (k ∈ T.map Prod.fst ∨ k ∈ O.map Prod.fst))
    ∧ ∀ k, ((merge_env_kv_list T O).map Prod.fst).count k
        = (T.map Prod.fst).count k
          + (if k ∈ T.map Prod.fst then 0
             else if k ∈ O.map Prod.fst then 1 else 0) := by
  constructor
  · intro k
    rw [merge_env_keys, List.mem_append]
    constructor
    · rintro (h | h)
      · exact Or.inl h
      · rcases List.mem_map.mp h with ⟨kv, hkv, hfst⟩
        exact Or.inr (List.mem_map.mpr ⟨kv, (List.mem_filter.mp hkv).1, hfst⟩)
    · rintro (h | h)
      · exact Or.inl h
      · by_cases ht : k ∈ T.map Prod.fst
        · exact Or.inl ht
        · rcases List.mem_map.mp h with ⟨kv, hkv, hfst⟩
          refine Or.inr (List.mem_map.mpr ⟨kv, List.mem_filter.mpr ⟨hkv, ?_⟩, hfst⟩)
          subst hfst
          simpa using ht
  · intro k
    rw [merge_env_keys, List.count_append]
    congr 1
    by_cases ht : k ∈ T.map Prod.fst
    · simp only [ht, if_true]
      apply List.count_eq_zero.mpr
      intro hmem
      rcases List.mem_map.mp hmem with ⟨kv, hkv, hfst⟩
      rcases List.mem_filter.mp hkv with ⟨_, hnc⟩
      subst hfst
      simp [ht] at hnc
    · simp only [ht, if_false]
      have hcount : ∀ O' : List (String × String),
          ((O'.filter (fun kv => !((T.map Prod.fst).contains kv.1))).map
            Prod.fst).count k = (O'.map Prod.fst).count k := by
        intro O'
        induction O' with
        | nil => rfl
        | cons kv O' ih =>
          rw [List.filter_cons]
          by_cases hpass : (!((T.map Prod.fst).contains kv.1)) = true
          · rw [if_pos hpass, List.map_cons, List.map_cons, List.count_cons,
              List.count_cons, ih]
          · have hc : ((T.map Prod.fst).contains kv.1) = true := by
              simpa using hpass
            have hmem : kv.1 ∈ T.map Prod.fst := by simpa using hc
            have hkk : k ≠ kv.1 := fun h => ht (h ▸ hmem)
            rw [if_neg hpass, ih, List.map_cons, List.count_cons_of_ne hkk]
      rw [hcount O]
      by_cases ho : k ∈ O.map Prod.fst
      · simp only [ho, if_true]
        exact List.count_eq_one_of_mem hO ho
      · simp only [ho, if_false]
        exact List.count_eq_zero.mpr ho

/-- Witness for C9 at a concrete input. -/
theorem c9_merge_env_witness :
    "C" ∈ (merge_env_kv_list [("A", "1"), ("B", "2")] [("B", "9"), ("C", "3")]).map
        Prod.fst :=
  ((c9_merge_env_key_counts [("A", "1"), ("B", "2")] [("B", "9"), ("C", "3")]
      (by decide)).1 "C").mpr (Or.inr (by decide))

/-- Rejection record produced when `create_pod` is given a GPU type outside
the catalog: the invalid id, the suggestion list it reports (the best
suggestion is its head), and the full list of valid ids it prints. -/
structure GpuRejection where
  invalidId : String
  suggestions : List String
  validIds : List String
deriving DecidableEq

/-- API calls issued by `create_pod`; only `deployPod` is a mutation. -/
inductive CreatePodAction where
  | queryGpuTypes
  | querySshKeys
  | queryTemplateEnv
  | deployPod (gpuType : String) (name : String)
      (env : Option (List (String × String)))
deriving DecidableEq

/-- Result of `create_pod`: validation rejection, server-side failure
(error list or missing id in the response), or the new pod id. -/
inductive CreatePodResult where
  | invalidGpu (r : GpuRejection)
  | failed
  | created (id : String)
deriving DecidableEq

/-- Responses of the remote API used by `create_pod`. -/
structure CreatePodWorld where
  gpuCatalog : List String
  sshKeys : Option String
  templateEnv : List (String × String)
  deployResult : Option String

/-- Model of `RunPodClient.create_pod` (src/utils/api.py).  It first fetches
the GPU catalog and validates the requested type, computing up to 5 fuzzy
suggestions and rejecting without any mutation if the type is unknown.
Otherwise it fetches the account SSH key and the template environment,
builds the override dict (PUBLIC_KEY, then HF_TOKEN, in that insertion
order), merges it into the template environment when non-empty, and issues
the single deploy mutation.  `sim` abstracts the similarity score of the
suggestion ranking. -/
def create_pod (sim : String → String → Nat) (name gpuType : String)
    (hfToken : Option String) (w : CreatePodWorld) :
    List CreatePodAction × CreatePodResult :=
  if gpuType ∈ w.gpuCatalog then
    let overrides :=
      (match w.sshKeys with
        | some ks => [("PUBLIC_KEY", ks)]
        | none => [])
      ++ (match hfToken with
        | some t => [("HF_TOKEN", t)]
        | none => [])
    let env : Option (List (String × String)) :=
      if overrides.isEmpty then none
      else some (merge_env_kv_list w.templateEnv overrides)
    let tr := [CreatePodAction.queryGpuTypes, CreatePodAction.querySshKeys,
      CreatePodAction.queryTemplateEnv, CreatePodAction.deployPod gpuType name env]
    match w.deployResult with
    | some pid => (tr, CreatePodResult.created pid)
    | none => (tr, CreatePodResult.failed)
  else
    ([CreatePodAction.queryGpuTypes],
     CreatePodResult.invalidGpu
       ⟨gpuType, suggest_gpu_types sim gpuType w.gpuCatalog 5, w.gpuCatalog⟩)

/-- Discriminator for the one mutating call of `create_pod`. -/
def CreatePodAction.isDeploy : CreatePodAction → Bool
  | CreatePodAction.deployPod _ _ _ => true
  | _ => false

/-- C6: a `create_pod` call whose GPU type is not in the fetched catalog is
rejected without issuing any mutating call, reporting the invalid id, the
suggestion list (at most 5 entries, a single one when the normalized input
matches a catalog id exactly) and the full valid list, as a returned value
rather than an exception. -/
theorem c6_create_pod_rejects_unknown_gpu (sim : String → String → Nat)
    (name gpuType : String) (hfToken : Option String) (w : CreatePodWorld)
    (h : gpuType ∉ w.gpuCatalog) :
    create_pod sim name gpuType hfToken w
      = ([CreatePodAction.queryGpuTypes],
         CreatePodResult.invalidGpu
           ⟨gpuType, suggest_gpu_types sim gpuType w.gpuCatalog 5, w.gpuCatalog⟩)
    ∧ (suggest_gpu_types sim gpuType w.gpuCatalog 5).length ≤ 5
    ∧ ((∃ c ∈ w.gpuCatalog,
          normalize_for_match c = normalize_for_match gpuType) →
        (suggest_gpu_types sim gpuType w.gpuCatalog 5).length = 1)
    ∧ ∀ a ∈ (create_pod sim name gpuType hfToken w).1, a.isDeploy = false := by
  have heq : create_pod sim name gpuType hfToken w
      = ([CreatePodAction.queryGpuTypes],
         CreatePodResult.invalidGpu
           ⟨gpuType, suggest_gpu_types sim gpuType w.gpuCatalog 5, w.gpuCatalog⟩) := by
    simp [create_pod, h]
  refine ⟨heq, suggest_length_le sim gpuType w.gpuCatalog, ?_, ?_⟩
  · intro hex
    rcases suggest_exact_case sim gpuType w.gpuCatalog 5 hex with ⟨c, hc, _, _⟩
    rw [hc]
    rfl
  · intro a ha
    rw [heq] at ha
    rcases List.mem_singleton.mp ha with rfl
    rfl

/-- Witness for C6 at a concrete input: requesting a100 against a catalog
holding only NVIDIA A100 is rejected with a single exact-normalized
suggestion and no deploy call. -/
theorem c6_create_pod_witness :
    create_pod (fun _ _ => 0) "alice-job" "nvidia a100" none
        ⟨["NVIDIA-A100"], none, [], none⟩
      = ([CreatePodAction.queryGpuTypes],
         CreatePodResult.invalidGpu
           ⟨"nvidia a100",
            suggest_gpu_types (fun _ _ => 0) "nvidia a100" ["NVIDIA-A100"] 5,
            ["NVIDIA-A100"]⟩)
    ∧ (suggest_gpu_types (fun _ _ => 0) "nvidia a100" ["NVIDIA-A100"] 5).length = 1 :=
  ⟨(c6_create_pod_rejects_unknown_gpu (fun _ _ => 0) "alice-job" "nvidia a100" none
      ⟨["NVIDIA-A100"], none, [], none⟩ (by decide)).1,
   (c6_create_pod_rejects_unknown_gpu (fun _ _ => 0) "alice-job" "nvidia a100" none
      ⟨["NVIDIA-A100"], none, [], none⟩ (by decide)).2.2.1
     ⟨"NVIDIA-A100", by decide, by decide⟩⟩

/-- Model of `check_http_server_running` (src/runpod_cli.py): the probe
result is the HTTP status code of the GET on the direct TCP endpoint, or
`none` when the request raised; the server counts as running when a
response arrived with a status strictly below 400. -/
def check_http_server_running (response : Option Nat) : Bool :=
  match response with
  | some status => status < 400
  | none => false

/-- Remote tmux commands issued by the session-management step of `main`. -/
inductive SessionAction where
  | killSession
  | createSession
deriving DecidableEq

/-- Model of the session-idempotency logic of `main` (src/runpod_cli.py,
step 4/5): when the tmux session exists and the HTTP server is running,
the command is skipped unless `restart_command` is set, in which case the
session is killed and recreated; otherwise a new session is created. -/
def session_command_actions (tmuxExists httpRunning restartCommand : Bool) :
    List SessionAction :=
  if tmuxExists && httpRunning then
    if restartCommand then [SessionAction.killSession, SessionAction.createSession]
    else []
  else [SessionAction.createSession]

/-- C7: when the tmux session already exists, the HTTP probe on the
application port returns a status below 400, and force-restart is not
configured, no session-creation and no session-kill command is issued. -/
theorem c7_session_idempotency (status : Nat) (h : status < 400) :
    session_command_actions true (check_http_server_running (some status)) false
      = [] := by
  have hrun : check_http_server_running (some status) = true := by
    simpa [check_http_server_running] using h
  rw [hrun]
  rfl

/-- Witness for C7 at a concrete input: a 200 response. -/
theorem c7_session_idempotency_witness :
    session_command_actions true (check_http_server_running (some 200)) false
      = [] :=
  c7_session_idempotency 200 (by decide)

/-- Whitespace characters stripped by Python `str.strip()` (ASCII range). -/
def is_py_space (c : Char) : Bool :=
  c = ' ' || c = '\t' || c = '\n' || c = '\r' || c = '\x0b' || c = '\x0c'

/-- Python `str.strip()` on the ASCII whitespace class: drop leading and
trailing whitespace characters. -/
def py_strip (s : String) : String :=
  String.mk (((s.data.dropWhile is_py_space).reverse.dropWhile is_py_space).reverse)

/-- Model of `get_latest_pod_id` (src/utils/config.py and its duplicate in
src/runpod_cli.py): the input is the content of the `.latest_pod` file when
it exists, `none` when it does not; the reader strips the content and
returns `none` when nothing remains. -/
def get_latest_pod_id (file : Option String) : Option String :=
  match file with
  | none => none
  | some content =>
    let pid := py_strip content
    if pid = "" then none else some pid

theorem py_strip_eq_empty_iff (s : String) :
    py_strip s = "" ↔ ∀ c ∈ s.data, is_py_space c = true := by
  unfold py_strip
  constructor
  · intro h c hc
    by_contra hcs
    have h1 : s.data.dropWhile is_py_space ≠ [] := by
      rw [Ne, List.dropWhile_eq_nil_iff]
      push_neg
      exact ⟨c, hc, fun h' => hcs h'⟩
    have hex : ∃ x ∈ s.data.dropWhile is_py_space, ¬ is_py_space x = true := by
      rcases List.exists_mem_of_ne_nil _ h1 with ⟨x, hx⟩
      by_cases hsp : is_py_space x = true
      · have hd := List.head?_dropWhile_not is_py_space s.data
        rcases hhead : (s.data.dropWhile is_py_space).head? with _ | ⟨y⟩
        · exact absurd (List.head?_eq_none_iff.mp hhead) h1
        · refine ⟨y, List.mem_of_mem_head? hhead, ?_⟩
          rw [hhead] at hd
          simpa using hd
      · exact ⟨x, hx, hsp⟩
    rcases hex with ⟨x, hx, hxs⟩
    have h2 : (s.data.dropWhile is_py_space).reverse.dropWhile is_py_space ≠ [] := by
      rw [Ne, List.dropWhile_eq_nil_iff]
      push_neg
      exact ⟨x, List.mem_reverse.mpr hx, fun h' => hxs h'⟩
    have : ((s.data.dropWhile is_py_space).reverse.dropWhile is_py_space).reverse
        = [] := by
      have := congrArg String.data h
      simpa using this
    exact h2 (by simpa using congrArg List.reverse this)
  · intro h
    have h1 : s.data.dropWhile is_py_space = [] :=
      List.dropWhile_eq_nil_iff.mpr (fun x hx => h x hx)
    rw [h1]
    rfl

/-- C10: reading the persisted latest-pod id returns `none` when the
`.latest_pod` file does not exist or contains only whitespace (in
particular when it is empty), and otherwise returns its content with
surrounding whitespace stripped. -/
theorem c10_get_latest_pod_id_spec :
    get_latest_pod_id none = none
    ∧ (∀ content, (∀ c ∈ content.data, is_py_space c = true) →
        get_latest_pod_id (some content) = none)
    ∧ (∀ content, (∃ c ∈ content.data, is_py_space c = false) →
        get_latest_pod_id (some content) = some (py_strip content)) := by
  refine ⟨rfl, ?_, ?_⟩
  · intro content h
    have : py_strip content = "" := (py_strip_eq_empty_iff content).mpr h
    simp [get_latest_pod_id, this]
  · intro content h
    have : py_strip content ≠ "" := by
      rw [Ne, py_strip_eq_empty_iff]
      push_neg
      rcases h with ⟨c, hc, hcs⟩
      exact ⟨c, hc, by simp [hcs]⟩
    simp [get_latest_pod_id, this]

/-- Witness for C10 at concrete inputs: a whitespace-only file yields no id,
a file holding a padded id yields the stripped id. -/
theorem c10_get_latest_pod_id_witness :
    get_latest_pod_id (some "  \n") = none
    ∧ get_latest_pod_id (some " p1xq8r \n") = some "p1xq8r" := by
  constructor
  · exact c10_get_latest_pod_id_spec.2.1 "  \n" (by decide)
  · have h := c10_get_latest_pod_id_spec.2.2 " p1xq8r \n"
      ⟨'p', by decide, by decide⟩
    rw [h]
    decide

/-- API actions issued by the pod-acquisition step of `main`
(src/runpod_cli.py, step 1). -/
inductive AcqAction where
  | getPod (id : String)
  | listPods
  | resume (id : String)
  | saveLatest (id : String)
  | waitReady (id : String)
  | create (name : String) (gpuType : String)
deriving DecidableEq

/-- Outcome of the acquisition step: a ready pod id, or a nonzero process
exit. -/
inductive AcqResult where
  | ready (podId : String)
  | fatalExit
deriving DecidableEq

/-- Outcome of the reuse block alone: a fatal exit (readiness timeout after
a resume), or fall-through with the pod id variable either set or still
unset. -/
inductive ReuseOut where
  | fatal
  | cont (podId : Option String)
deriving DecidableEq

/-- Configuration fields of `main` that the acquisition step reads. -/
structure AcqConfig where
  targetPodId : Option String
  reuse : Bool
  gpuTypeId : String
  podName : String
  userName : String

/-- Oracle for the remote API and the local `.latest_pod` state during one
acquisition run: the persisted latest id (after `get_latest_pod_id`), the
per-id `get_pod` responses, the `list_pods` response, the success of
`resume_pod` per id, the result of `wait_for_pod_ready` per id, and the
result of `create_pod`. -/
structure AcqWorld where
  latestFile : Option String
  getPod : String → Option Pod
  pods : List Pod
  resumeOk : String → Bool
  waitReady : String → Bool
  createResult : Option String

/-- Python truthiness test `not pod_id or pod_id == "null"` applied to the
pod id variable of `main`. -/
def is_unset_id : Option String → Bool
  | none => true
  | some s => s = "" || s = "null"

/-- Model of Python `str.startswith`. -/
def str_starts_with (s pre : String) : Bool :=
  pre.data.isPrefixOf s.data

/-- The filter of the fuzzy stopped-pod search in `main`: name starts with
the user-podName prefix, GPU type equals the desired type, and no runtime
descriptor is present. -/
def pod_matches (pfx gpu : String) (p : Pod) : Bool :=
  str_starts_with p.name pfx && (p.gpuTypeId == gpu) && !p.runtime.isSome

/-- Model of the reuse block of `main` (src/runpod_cli.py lines 628-733):
check the persisted latest pod; reuse it as-is when running; when stopped
with a matching GPU type resume it (readiness timeout fatal, resume
failure falling through); when stopped with a mismatched GPU type search
all pods for the first stopped pod with the right name prefix and GPU type
and resume that one, persisting it as the new latest. -/
def reuse_phase (cfg : AcqConfig) (w : AcqWorld) : List AcqAction × ReuseOut :=
  if cfg.reuse then
    match w.latestFile with
    | none => ([], ReuseOut.cont none)
    | some latest =>
      match w.getPod latest with
      | none => ([AcqAction.getPod latest], ReuseOut.cont none)
      | some pod =>
        if pod.runtime.isSome then
          ([AcqAction.getPod latest], ReuseOut.cont (some latest))
        else if pod.gpuTypeId = cfg.gpuTypeId then
          if w.resumeOk latest then
            if w.waitReady latest then
              ([AcqAction.getPod latest, AcqAction.resume latest,
                AcqAction.waitReady latest], ReuseOut.cont (some latest))
            else
              ([AcqAction.getPod latest, AcqAction.resume latest,
                AcqAction.waitReady latest], ReuseOut.fatal)
          else
            ([AcqAction.getPod latest, AcqAction.resume latest], ReuseOut.cont none)
        else
          match w.pods.find?
              (pod_matches (cfg.userName ++ "-" ++ cfg.podName) cfg.gpuTypeId) with
          | some m =>
            if w.resumeOk m.id then
              if w.waitReady m.id then
                ([AcqAction.getPod latest, AcqAction.listPods,
                  AcqAction.resume m.id, AcqAction.saveLatest m.id,
                  AcqAction.waitReady m.id], ReuseOut.cont (some m.id))
              else
                ([AcqAction.getPod latest, AcqAction.listPods,
                  AcqAction.resume m.id, AcqAction.saveLatest m.id,
                  AcqAction.waitReady m.id], ReuseOut.fatal)
            else
              ([AcqAction.getPod latest, AcqAction.listPods,
                AcqAction.resume m.id], ReuseOut.cont none)
          | none =>
            ([AcqAction.getPod latest, AcqAction.listPods], ReuseOut.cont none)
  else ([], ReuseOut.cont none)

/-- Model of the creation block of `main` (src/runpod_cli.py lines 736-763):
create a pod named user-podName; a rejected creation is fatal; on success
the new id is persisted and polled for readiness, a timeout being fatal. -/
def create_phase (cfg : AcqConfig) (w : AcqWorld) : List AcqAction × AcqResult :=
  let nm := cfg.userName ++ "-" ++ cfg.podName
  match w.createResult with
  | none => ([AcqAction.create nm cfg.gpuTypeId], AcqResult.fatalExit)
  | some nid =>
    if w.waitReady nid then
      ([AcqAction.create nm cfg.gpuTypeId, AcqAction.saveLatest nid,
        AcqAction.waitReady nid], AcqResult.ready nid)
    else
      ([AcqAction.create nm cfg.gpuTypeId, AcqAction.saveLatest nid,
        AcqAction.waitReady nid], AcqResult.fatalExit)

/-- Model of the whole pod-acquisition step of `main`: an explicitly
configured target pod id short-circuits everything; otherwise the reuse
block runs and the creation block follows whenever the pod id variable is
still unset afterwards. -/
def acquire_pod (cfg : AcqConfig) (w : AcqWorld) : List AcqAction × AcqResult :=
  if is_unset_id cfg.targetPodId then
    match reuse_phase cfg w with
    | (t, ReuseOut.fatal) => (t, AcqResult.fatalExit)
    | (t, ReuseOut.cont pid) =>
      if is_unset_id pid then
        let res := create_phase cfg w
        (t ++ res.1, res.2)
      else (t, AcqResult.ready (pid.getD ""))
  else ([], AcqResult.ready (cfg.targetPodId.getD ""))

/-- Discriminator for resume actions, used to count resume calls. -/
def AcqAction.isResume : AcqAction → Bool
  | AcqAction.resume _ => true
  | _ => false

theorem find_eq_some_split {α : Type} (p : α → Bool) :
    ∀ (l : List α) (m : α), l.find? p = some m →
      ∃ l1 l2, l = l1 ++ m :: l2 ∧ (∀ x ∈ l1, p x = false) ∧ p m = true := by
  intro l
  induction l with
  | nil => intro m h; simp [List.find?] at h
  | cons a l ih =>
    intro m h
    by_cases hp : p a
    · rw [List.find?_cons_of_pos _ hp] at h
      rcases Option.some.injEq .. ▸ h with rfl
      exact ⟨[], l, rfl, by simp, hp⟩
    · rw [List.find?_cons_of_neg _ (by simpa using hp)] at h
      rcases ih m h with ⟨l1, l2, rfl, hl1, hm⟩
      exact ⟨a :: l1, l2, rfl, by
        intro x hx
        rcases List.mem_cons.mp hx with rfl | hx
        · simpa using hp
        · exact hl1 x hx, hm⟩

/-- C1: with reuse enabled, the persisted latest pod present server-side,
stopped, and of a different GPU type than configured, the engine lists all
pods and selects the first listed pod whose name starts with the
user-podName prefix, whose GPU type equals the configured one and which has
no runtime descriptor; when such a pod exists (and its resume call
succeeds, its id being a real identifier), the engine resumes it, persists
its id as the new latest and polls it for readiness; when no pod matches,
the engine proceeds to create a new pod. -/
theorem c1_fuzzy_resume_selects_first_match (cfg : AcqConfig) (w : AcqWorld)
    (L : String) (pod : Pod)
    (htarget : is_unset_id cfg.targetPodId = true)
    (hreuse : cfg.reuse = true)
    (hlatest : w.latestFile = some L)
    (hget : w.getPod L = some pod)
    (hstopped : pod.runtime = none)
    (hmismatch : pod.gpuTypeId ≠ cfg.gpuTypeId) :
    (∀ m, w.pods.find?
        (pod_matches (cfg.userName ++ "-" ++ cfg.podName) cfg.gpuTypeId) = some m →
      (∃ l1 l2, w.pods = l1 ++ m :: l2
        ∧ (∀ p ∈ l1,
            pod_matches (cfg.userName ++ "-" ++ cfg.podName) cfg.gpuTypeId p = false)
        ∧ pod_matches (cfg.userName ++ "-" ++ cfg.podName) cfg.gpuTypeId m = true)
      ∧ (w.resumeOk m.id = true → is_unset_id (some m.id) = false →
          acquire_pod cfg w
            = ([AcqAction.getPod L, AcqAction.listPods, AcqAction.resume m.id,
                AcqAction.saveLatest m.id, AcqAction.waitReady m.id],
               if w.waitReady m.id then AcqResult.ready m.id
               else AcqResult.fatalExit)))
    ∧ (w.pods.find?
          (pod_matches (cfg.userName ++ "-" ++ cfg.podName) cfg.gpuTypeId) = none →
        AcqAction.listPods ∈ (acquire_pod cfg w).1
        ∧ AcqAction.create (cfg.userName ++ "-" ++ cfg.podName) cfg.gpuTypeId
            ∈ (acquire_pod cfg w).1) := by
  constructor
  · intro m hfind
    refine ⟨find_eq_some_split _ w.pods m hfind, ?_⟩
    intro hres hid
    cases hw : w.waitReady m.id with
    | true =>
      have hr : reuse_phase cfg w
          = ([AcqAction.getPod L, AcqAction.listPods, AcqAction.resume m.id,
              AcqAction.saveLatest m.id, AcqAction.waitReady m.id],
             ReuseOut.cont (some m.id)) := by
        simp [reuse_phase, hreuse, hlatest, hget, hstopped, hmismatch, hfind,
          hres, hw]
      simp [acquire_pod, htarget, hr, hid, hw]
    | false =>
      have hr : reuse_phase cfg w
          = ([AcqAction.getPod L, AcqAction.listPods, AcqAction.resume m.id,
              AcqAction.saveLatest m.id, AcqAction.waitReady m.id],
             ReuseOut.fatal) := by
        simp [reuse_phase, hreuse, hlatest, hget, hstopped, hmismatch, hfind,
          hres, hw]
      simp [acquire_pod, htarget, hr, hw]
  · intro hfind
    have hr : reuse_phase cfg w
        = ([AcqAction.getPod L, AcqAction.listPods], ReuseOut.cont none) := by
      simp [reuse_phase, hreuse, hlatest, hget, hstopped, hmismatch, hfind]
    have hacq : acquire_pod cfg w
        = ([AcqAction.getPod L, AcqAction.listPods] ++ (create_phase cfg w).1,
           (create_phase cfg w).2) := by
      simp [acquire_pod, htarget, hr, show is_unset_id none = true from rfl]
    rw [hacq]
    refine ⟨List.mem_append.mpr (Or.inl (by simp)), List.mem_append.mpr (Or.inr ?_)⟩
    cases hc : w.createResult with
    | none => simp [create_phase, hc]
    | some nid =>
      cases hw : w.waitReady nid with
      | true => simp [create_phase, hc, hw]
      | false => simp [create_phase, hc, hw]

/-- Concrete stopped pod used by the acquisition witnesses: the persisted
latest pod, stopped, on an A40. -/
def pod_p1 : Pod := ⟨"p1", "alice-job", "EXITED", "NVIDIA A40", none⟩

/-- Concrete stopped pod with the configured GPU type and the right name
for the fuzzy search to select. -/
def pod_p2 : Pod := ⟨"p2", "alice-job-7", "EXITED", "A100", none⟩

/-- Concrete configuration for the C1 witness: no explicit target, reuse
enabled, desired GPU A100, pod name job for user alice. -/
def c1_cfg : AcqConfig := ⟨none, true, "A100", "job", "alice"⟩

/-- Concrete oracle for the C1 witness: latest pod p1 exists and is stopped
on the wrong GPU, the listing holds p2, resume and readiness succeed. -/
def c1_world : AcqWorld :=
  ⟨some "p1", fun i => if i = "p1" then some pod_p1 else none, [pod_p2],
   fun _ => true, fun _ => true, some "new1"⟩

/-- Witness for C1 at a concrete input: the engine resumes p2, persists it
and polls it, returning p2. -/
theorem c1_fuzzy_resume_witness :
    acquire_pod c1_cfg c1_world
      = ([AcqAction.getPod "p1", AcqAction.listPods, AcqAction.resume "p2",
          AcqAction.saveLatest "p2", AcqAction.waitReady "p2"],
         AcqResult.ready "p2") := by
  have h := (c1_fuzzy_resume_selects_first_match c1_cfg c1_world "p1" pod_p1
    (by decide) rfl rfl (by decide) rfl (by decide)).1 pod_p2 (by decide)
  have h2 := h.2 rfl (by decide)
  simpa [c1_world] using h2

/-- C2: with reuse enabled and the persisted latest pod stopped with a GPU
type exactly matching the configured one, the engine calls resume exactly
once; when that resume call fails it neither retries nor exits, falling
through to pod creation; when resume succeeds but the pod does not become
ready within the startup timeout, the run exits nonzero and never reaches
pod creation. -/
theorem c2_exact_resume_failure_asymmetry (cfg : AcqConfig) (w : AcqWorld)
    (L : String) (pod : Pod)
    (htarget : is_unset_id cfg.targetPodId = true)
    (hreuse : cfg.reuse = true)
    (hlatest : w.latestFile = some L)
    (hget : w.getPod L = some pod)
    (hstopped : pod.runtime = none)
    (hgpu : pod.gpuTypeId = cfg.gpuTypeId) :
    (acquire_pod cfg w).1.countP (fun a => a.isResume) = 1
    ∧ (w.resumeOk L = false →
        AcqAction.create (cfg.userName ++ "-" ++ cfg.podName) cfg.gpuTypeId
          ∈ (acquire_pod cfg w).1)
    ∧ (w.resumeOk L = true → w.waitReady L = false →
        acquire_pod cfg w
          = ([AcqAction.getPod L, AcqAction.resume L, AcqAction.waitReady L],
             AcqResult.fatalExit)
        ∧ ∀ nm g, AcqAction.create nm g ∉ (acquire_pod cfg w).1) := by
  have hcp0 : (create_phase cfg w).1.countP (fun a => a.isResume) = 0 := by
    cases hc : w.createResult with
    | none => simp [create_phase, hc, AcqAction.isResume]
    | some nid =>
      cases hw' : w.waitReady nid with
      | true => simp [create_phase, hc, hw', AcqAction.isResume]
      | false => simp [create_phase, hc, hw', AcqAction.isResume]
  have hcpm : AcqAction.create (cfg.userName ++ "-" ++ cfg.podName) cfg.gpuTypeId
      ∈ (create_phase cfg w).1 := by
    cases hc : w.createResult with
    | none => simp [create_phase, hc]
    | some nid =>
      cases hw' : w.waitReady nid with
      | true => simp [create_phase, hc, hw']
      | false => simp [create_phase, hc, hw']
  refine ⟨?_, ?_, ?_⟩
  · cases hres : w.resumeOk L with
    | false =>
      have hr : reuse_phase cfg w
          = ([AcqAction.getPod L, AcqAction.resume L], ReuseOut.cont none) := by
        simp [reuse_phase, hreuse, hlatest, hget, hstopped, hgpu, hres]
      have hacq : acquire_pod cfg w
          = ([AcqAction.getPod L, AcqAction.resume L] ++ (create_phase cfg w).1,
             (create_phase cfg w).2) := by
        simp [acquire_pod, htarget, hr, show is_unset_id none = true from rfl]
      rw [hacq, List.countP_append, hcp0]
      simp [List.countP_cons, AcqAction.isResume]
    | true =>
      cases hw : w.waitReady L with
      | true =>
        have hr : reuse_phase cfg w
            = ([AcqAction.getPod L, AcqAction.resume L, AcqAction.waitReady L],
               ReuseOut.cont (some L)) := by
          simp [reuse_phase, hreuse, hlatest, hget, hstopped, hgpu, hres, hw]
        cases hL : is_unset_id (some L) with
        | false =>
          have hacq : acquire_pod cfg w
              = ([AcqAction.getPod L, AcqAction.resume L, AcqAction.waitReady L],
                 AcqResult.ready L) := by
            simp [acquire_pod, htarget, hr, hL]
          rw [hacq]
          simp [List.countP_cons, AcqAction.isResume]
        | true =>
          have hacq : acquire_pod cfg w
              = ([AcqAction.getPod L, AcqAction.resume L, AcqAction.waitReady L]
                  ++ (create_phase cfg w).1, (create_phase cfg w).2) := by
            simp [acquire_pod, htarget, hr, hL]
          rw [hacq, List.countP_append, hcp0]
          simp [List.countP_cons, AcqAction.isResume]
      | false =>
        have hr : reuse_phase cfg w
            = ([AcqAction.getPod L, AcqAction.resume L, AcqAction.waitReady L],
               ReuseOut.fatal) := by
          simp [reuse_phase, hreuse, hlatest, hget, hstopped, hgpu, hres, hw]
        have hacq : acquire_pod cfg w
            = ([AcqAction.getPod L, AcqAction.resume L, AcqAction.waitReady L],
               AcqResult.fatalExit) := by
          simp [acquire_pod, htarget, hr]
        rw [hacq]
        simp [List.countP_cons, AcqAction.isResume]
  · intro hres
    have hr : reuse_phase cfg w
        = ([AcqAction.getPod L, AcqAction.resume L], ReuseOut.cont none) := by
      simp [reuse_phase, hreuse, hlatest, hget, hstopped, hgpu, hres]
    have hacq : acquire_pod cfg w
        = ([AcqAction.getPod L, AcqAction.resume L] ++ (create_phase cfg w).1,
           (create_phase cfg w).2) := by
      simp [acquire_pod, htarget, hr, show is_unset_id none = true from rfl]
    rw [hacq]
    exact List.mem_append.mpr (Or.inr hcpm)
  · intro hres hw
    have hr : reuse_phase cfg w
        = ([AcqAction.getPod L, AcqAction.resume L, AcqAction.waitReady L],
           ReuseOut.fatal) := by
      simp [reuse_phase, hreuse, hlatest, hget, hstopped, hgpu, hres, hw]
    have hacq : acquire_pod cfg w
        = ([AcqAction.getPod L, AcqAction.resume L, AcqAction.waitReady L],
           AcqResult.fatalExit) := by
      simp [acquire_pod, htarget, hr]
    refine ⟨hacq, ?_⟩
    intro nm g hmem
    rw [hacq] at hmem
    simp at hmem

/-- Concrete configuration for the C2 witness: desired GPU matches the
latest pod. -/
def c2_cfg : AcqConfig := ⟨none, true, "NVIDIA A40", "job", "alice"⟩

/-- Concrete oracle for the C2 witness: the latest pod p1 is stopped with
the matching GPU, resume succeeds but readiness times out. -/
def c2_world : AcqWorld :=
  ⟨some "p1", fun i => if i = "p1" then some pod_p1 else none, [],
   fun _ => true, fun _ => false, some "new1"⟩

/-- Witness for C2 at a concrete input: resume succeeds, readiness times
out, the run exits nonzero without creating a pod. -/
theorem c2_exact_resume_witness :
    acquire_pod c2_cfg c2_world
      = ([AcqAction.getPod "p1", AcqAction.resume "p1", AcqAction.waitReady "p1"],
         AcqResult.fatalExit)
    ∧ (acquire_pod c2_cfg c2_world).1.countP (fun a => a.isResume) = 1 := by
  have h := c2_exact_resume_failure_asymmetry c2_cfg c2_world "p1" pod_p1
    (by decide) rfl rfl (by decide) rfl (by decide)
  exact ⟨(h.2.2 rfl rfl).1, h.1⟩

theorem wait_iter_ready (responses : Nat → Option Pod) :
    ∀ (steps k n : Nat),
      (∀ j, j < k → is_ready_response (responses (n + j)) = false) →
      is_ready_response (responses (n + k)) = true → k < steps →
      wait_iter responses steps n = (true, n + k + 1) := by
  intro steps
  induction steps with
  | zero => intro k n _ _ hk; exact absurd hk (Nat.not_lt_zero k)
  | succ steps ih =>
    intro k n hbefore hready hk
    cases k with
    | zero =>
      have h0 : is_ready_response (responses n) = true := by simpa using hready
      simp [wait_iter, h0]
    | succ k =>
      have h0 : is_ready_response (responses n) = false := by
        simpa using hbefore 0 (Nat.succ_pos k)
      rw [wait_iter, if_neg (by simp [h0])]
      have hrec := ih k (n + 1)
        (fun j hj => by
          have := hbefore (j + 1) (Nat.succ_lt_succ hj)
          simpa [Nat.add_assoc, Nat.add_comm 1 j] using this)
        (by simpa [Nat.add_assoc, Nat.add_comm 1 k] using hready)
        (Nat.lt_of_succ_lt_succ hk)
      rw [hrec]
      congr 1
      omega

theorem wait_iter_never (responses : Nat → Option Pod)
    (h : ∀ n, is_ready_response (responses n) = false) :
    ∀ (steps n : Nat), wait_iter responses steps n = (false, n + steps) := by
  intro steps
  induction steps with
  | zero => intro n; simp [wait_iter]
  | succ steps ih =>
    intro n
    rw [wait_iter, if_neg (by simp [h n])]
    rw [ih (n + 1)]
    congr 1
    omega

/-- Concrete running pod with a non-empty ports list. -/
def pod_ready_ex : Pod :=
  ⟨"p3", "alice-job", "RUNNING", "A100",
   some ⟨[⟨"1.2.3.4", 30022, 22, "tcp", true⟩], 5⟩⟩

/-- Response sequence whose second response (N = 2) is the first ready
one. -/
def c3_responses : Nat → Option Pod :=
  fun n => if n = 0 then some pod_p1 else some pod_ready_ex

/-- Counterexample for C3 as stated: with a timeout of 5 seconds and a
response sequence whose second response is the first ready one, the loop
body is entered only once (the loop condition fails at elapsed time 10),
so `wait_for_pod_ready` performs one `get_pod` call and returns false,
not at least 2 calls and true as the claim requires for every timeout. -/
theorem c3_wait_ready_small_timeout_cex :
    is_ready_response (c3_responses 0) = false
    ∧ is_ready_response (c3_responses 1) = true
    ∧ wait_for_pod_ready c3_responses 5 = (false, 1)
    ∧ ¬((wait_for_pod_ready c3_responses 5).1 = true
        ∧ 2 ≤ (wait_for_pod_ready c3_responses 5).2) := by decide

/-- C3 (amended): `wait_for_pod_ready` polls `get_pod` at 10-second
spacing; when the first ready response is the (k+1)-st one and that poll
still happens before the timeout elapses (10 times k is below the
timeout), it performs exactly k+1 calls and returns true; when no response
is ever ready it returns false after ceiling of timeout over 10 calls,
at which point the elapsed time has reached the timeout. -/
theorem c3_wait_ready_amended (responses : Nat → Option Pod)
    (timeout k : Nat) :
    ((∀ j, j < k → is_ready_response (responses j) = false) →
      is_ready_response (responses k) = true → 10 * k < timeout →
      wait_for_pod_ready responses timeout = (true, k + 1))
    ∧ ((∀ n, is_ready_response (responses n) = false) →
        wait_for_pod_ready responses timeout = (false, (timeout + 9) / 10)
        ∧ timeout ≤ 10 * (wait_for_pod_ready responses timeout).2) := by
  constructor
  · intro hbefore hready htime
    have hk : k < (timeout + 9) / 10 := by omega
    have h := wait_iter_ready responses ((timeout + 9) / 10) k 0
      (fun j hj => by simpa using hbefore j hj) (by simpa using hready) hk
    simpa [wait_for_pod_ready] using h
  · intro hnever
    have h := wait_iter_never responses hnever ((timeout + 9) / 10) 0
    have heq : wait_for_pod_ready responses timeout
        = (false, (timeout + 9) / 10) := by
      simpa [wait_for_pod_ready] using h
    refine ⟨heq, ?_⟩
    rw [heq]
    show timeout ≤ 10 * ((timeout + 9) / 10)
    omega

/-- Witness for the amended C3 at a concrete input: an immediately ready
pod with a 1-second timeout is polled once and reported ready. -/
theorem c3_wait_ready_witness :
    wait_for_pod_ready (fun _ => some pod_ready_ex) 1 = (true, 1) := by
  have h := (c3_wait_ready_amended (fun _ => some pod_ready_ex) 1 0).1
    (fun j hj => absurd hj (Nat.not_lt_zero j)) (by decide) (by decide)
  simpa using h
